import Mathlib

/-
Verification of the notification-delivery kernel of samber/ro (a Go
reactive-streams runtime): the Observer state machine with panic capture
(observer.go), the Subscription teardown aggregator (subscription.go), the
Subscriber adapter with its concurrency modes (subscriber.go and its older
variant), the global hooks (dropped notifications / unhandled errors), and
the Average operator (operator_math.go).

The embedding is a shallow one.  Each Go method is translated into a pure
Lean function from the receiver's state to the new state paired with the
list of externally observable effects ("events") the call performs, in
order: user-callback invocations, calls into the global
dropped-notification and unhandled-error hooks, panics escaping to the
caller, finalizer executions, and `Subscription.Unsubscribe` invocations.
Concurrent executions are modelled by their linearization: the only shared
mutable datum consulted by the branch decisions of every method is the
atomic `status` field (read by `atomic.LoadInt32`, written by
`atomic.CompareAndSwapInt32`), so a run of N concurrent calls is faithfully
represented by processing the calls in the order their atomic load/CAS
steps take effect, which is an arbitrary list of operations.
-/

namespace Ro

/-! ## Basic data: status, contexts, errors, notifications -/

/-- Lifecycle status of observers and subscribers.  In the Go sources this
is an `int32`: 0 = active, 1 = errored, 2 = completed. -/
inductive Status where
  | active
  | errored
  | completed
deriving DecidableEq, Repr

/-- A Go `context.Context` as the core reads it: the core consults exactly
one boolean key (the per-subscription panic-capture opt-out installed by
`WithObserverPanicCaptureDisabled`, observer.go lines 29-45).  The `key`
field stands for the rest of the context's identity, so that distinct
contexts can be told apart in theorems about which context a callback
receives. -/
structure GoContext where
  key : Nat := 0
  captureDisabled : Bool := false
deriving DecidableEq, Repr

/-- Go `context.Background()`. -/
def contextBackground : GoContext := {}

/-- observer.go line 37: returns a derived context that disables observer
panic capture for this subscription. -/
def WithObserverPanicCaptureDisabled (ctx : GoContext) : GoContext :=
  { ctx with captureDisabled := true }

/-- observer.go line 41: reads the opt-out flag back from the context. -/
def isObserverPanicCaptureDisabled (ctx : GoContext) : Bool :=
  ctx.captureDisabled

/-- Go `error` values, as far as the kernel constructs and inspects them. -/
inductive GoErr where
  /-- an ordinary error carrying a message -/
  | msg (s : String)
  /-- `newObserverError`: wraps a callback panic (spec section 6.5) -/
  | observerError (e : GoErr)
  /-- `newUnsubscriptionError`: wraps a finalizer panic (spec section 6.5) -/
  | unsubscriptionError (e : GoErr)
deriving DecidableEq, Repr

/-- A value recovered from a Go panic (`recover()` returns `any`). -/
inductive PanicValue where
  | str (s : String)
  | err (e : GoErr)
deriving DecidableEq, Repr

/-- Modelled from the spec: `recoverValueToError` is referenced by
observer.go and subscription.go but its defining file is not among the
sources; per the spec (section 9, "the source recovers arbitrary panic
payloads as any") it converts a recovered panic payload into an `error`,
passing error payloads through and wrapping other payloads. -/
def recoverValueToError : PanicValue → GoErr
  | .err e => e
  | .str s => .msg s

/-- Modelled from the spec: `newObserverError` is referenced by observer.go
but its defining file is not among the sources; per spec section 6.5 an
observer error wraps a callback panic, carrying the original payload. -/
def newObserverError (e : GoErr) : GoErr := .observerError e

/-- Modelled from the spec: `newUnsubscriptionError` is referenced by
subscription.go but its defining file is not among the sources; per spec
section 6.5 an unsubscription error wraps a finalizer panic. -/
def newUnsubscriptionError (e : GoErr) : GoErr := .unsubscriptionError e

/-- Outcome of invoking a user callback or finalizer: it either returns
normally or panics with some payload. -/
inductive CbOutcome where
  | ok
  | panics (p : PanicValue)
deriving DecidableEq, Repr

/-- Notification kinds (sink_file.go lines 177-198). -/
inductive Kind where
  | next
  | error
  | complete
deriving DecidableEq, Repr

/-- sink_file.go lines 203-207: a notification record.  `value` is only set
for Next and `err` only for Error, matching the Go zero values (modelled as
`none`) of the unused fields. -/
structure Notification (α : Type) where
  kind : Kind
  value : Option α := none
  err : Option GoErr := none
deriving DecidableEq, Repr

/-- sink_file.go line 227. -/
def NewNotificationNext {α : Type} (value : α) : Notification α :=
  { kind := .next, value := some value }

/-- sink_file.go line 235.  The Go `err` argument may be nil. -/
def NewNotificationError (α : Type) (err : Option GoErr) : Notification α :=
  { kind := .error, err := err }

/-- sink_file.go line 243. -/
def NewNotificationComplete (α : Type) : Notification α :=
  { kind := .complete }

/-! ## Observer (observer.go)

`observerImpl` holds the atomic status, the capture flag and three
optional callbacks.  A callback is modelled by the outcome of invoking it
(normal return or panic); its presence models the Go nil check. -/

/-- observer.go lines 155-164. -/
structure ObserverImpl (α : Type) where
  status : Status := .active
  capturePanics : Bool := true
  onNext : Option (α → CbOutcome) := none
  onError : Option (Option GoErr → CbOutcome) := none
  onComplete : Option CbOutcome := none

/-- Externally observable effects of one observer method call, in the
order they happen. -/
inductive ObsEvent (α : Type) where
  /-- the `onNext` user callback was invoked with this value -/
  | callNext (v : α)
  /-- the `onError` user callback was invoked with this error -/
  | callError (e : Option GoErr)
  /-- the `onComplete` user callback was invoked -/
  | callComplete
  /-- `OnDroppedNotification` (global hook) received this notification -/
  | droppedNotification (n : Notification α)
  /-- `OnUnhandledError` (global hook) received this error -/
  | unhandledError (e : GoErr)
  /-- a panic with this payload escaped to the caller of the method -/
  | panicEscaped (p : PanicValue)
deriving DecidableEq, Repr

namespace ObserverImpl

variable {α : Type}

/-- observer.go lines 228-244: invoke `onError`, catching a panic when
capture is enabled.  `tryError` never changes `status`; its callers are
responsible for the CAS.  Callers guarantee `onError` is non-nil (a nil
`onError` here would be a nil dereference in Go; it is unreachable). -/
def tryError (o : ObserverImpl α) (ctx : GoContext) (err : Option GoErr) :
    List (ObsEvent α) :=
  match o.onError with
  | none => []
  | some f =>
    match f err with
    | .ok => [.callError err]
    | .panics p =>
      if ¬o.capturePanics ∨ isObserverPanicCaptureDisabled ctx then
        [.callError err, .panicEscaped p]
      else
        [.callError err, .unhandledError (newObserverError (recoverValueToError p))]

/-- observer.go lines 246-262: invoke `onComplete`, catching a panic when
capture is enabled.  Never changes `status`. -/
def tryComplete (o : ObserverImpl α) (ctx : GoContext) : List (ObsEvent α) :=
  match o.onComplete with
  | none => []
  | some b =>
    match b with
    | .ok => [.callComplete]
    | .panics p =>
      if ¬o.capturePanics ∨ isObserverPanicCaptureDisabled ctx then
        [.callComplete, .panicEscaped p]
      else
        [.callComplete, .unhandledError (newObserverError (recoverValueToError p))]

/-- observer.go lines 205-226: invoke `onNext`.  With capture disabled
(either on the observer or via the context flag) the callback is invoked
directly and a panic escapes.  With capture enabled, a panic is converted
to an observer error and routed to `tryError` when `onError` exists, else
to the global unhandled-error hook.  Note that no branch writes `status`. -/
def tryNext (o : ObserverImpl α) (ctx : GoContext) (value : α) :
    List (ObsEvent α) :=
  match o.onNext with
  | none => []
  | some f =>
    if ¬o.capturePanics ∨ isObserverPanicCaptureDisabled ctx then
      match f value with
      | .ok => [.callNext value]
      | .panics p => [.callNext value, .panicEscaped p]
    else
      match f value with
      | .ok => [.callNext value]
      | .panics p =>
        let err := newObserverError (recoverValueToError p)
        match o.onError with
        | none => [.callNext value, .unhandledError err]
        | some _ => .callNext value :: tryError o ctx (some err)

/-- observer.go lines 170-177: drop when `onNext` is nil or the status is
no longer active (atomic load), else run `tryNext`. -/
def NextWithContext (o : ObserverImpl α) (ctx : GoContext) (value : α) :
    ObserverImpl α × List (ObsEvent α) :=
  if o.onNext.isNone ∨ o.status ≠ .active then
    (o, [.droppedNotification (NewNotificationNext value)])
  else
    (o, tryNext o ctx value)

/-- observer.go lines 183-190: drop when `onError` is nil or the CAS
(active to errored) fails; on CAS success run `tryError`.  The Go
short-circuit means a nil `onError` skips the CAS, leaving status
untouched. -/
def ErrorWithContext (o : ObserverImpl α) (ctx : GoContext) (err : Option GoErr) :
    ObserverImpl α × List (ObsEvent α) :=
  if o.onError.isNone ∨ o.status ≠ .active then
    (o, [.droppedNotification (NewNotificationError α err)])
  else
    ({ o with status := .errored }, tryError o ctx err)

/-- observer.go lines 196-203: drop when `onComplete` is nil or the CAS
(active to completed) fails; on CAS success run `tryComplete`. -/
def CompleteWithContext (o : ObserverImpl α) (ctx : GoContext) :
    ObserverImpl α × List (ObsEvent α) :=
  if o.onComplete.isNone ∨ o.status ≠ .active then
    (o, [.droppedNotification (NewNotificationComplete α)])
  else
    ({ o with status := .completed }, tryComplete o ctx)

/-- observer.go line 166: `Next` delegates with a background context. -/
def Next (o : ObserverImpl α) (value : α) : ObserverImpl α × List (ObsEvent α) :=
  o.NextWithContext contextBackground value

/-- observer.go line 179. -/
def Error (o : ObserverImpl α) (err : Option GoErr) :
    ObserverImpl α × List (ObsEvent α) :=
  o.ErrorWithContext contextBackground err

/-- observer.go line 192. -/
def Complete (o : ObserverImpl α) : ObserverImpl α × List (ObsEvent α) :=
  o.CompleteWithContext contextBackground

/-- observer.go line 264. -/
def IsClosed (o : ObserverImpl α) : Bool := o.status ≠ .active

/-- observer.go line 268. -/
def HasThrown (o : ObserverImpl α) : Bool := o.status = .errored

/-- observer.go line 272. -/
def IsCompleted (o : ObserverImpl α) : Bool := o.status = .completed

end ObserverImpl

/-- One call into an observer, as issued by some (possibly concurrent)
caller; the list position in a run is the linearization order of the
call's atomic load/CAS step. -/
inductive ObsOp (α : Type) where
  | next (ctx : GoContext) (v : α)
  | error (ctx : GoContext) (e : Option GoErr)
  | complete (ctx : GoContext)
deriving DecidableEq, Repr

/-- Whether an operation is a terminal (`Error` or `Complete`) call. -/
def ObsOp.isTerminal {α : Type} : ObsOp α → Bool
  | .next _ _ => false
  | .error _ _ => true
  | .complete _ => true

/-- Dispatch one observer call. -/
def runObsOp {α : Type} (o : ObserverImpl α) :
    ObsOp α → ObserverImpl α × List (ObsEvent α)
  | .next ctx v => o.NextWithContext ctx v
  | .error ctx e => o.ErrorWithContext ctx e
  | .complete ctx => o.CompleteWithContext ctx

/-- Run a linearized sequence of observer calls, concatenating traces. -/
def runObsOps {α : Type} (o : ObserverImpl α) :
    List (ObsOp α) → ObserverImpl α × List (ObsEvent α)
  | [] => (o, [])
  | op :: ops =>
    let r := runObsOp o op
    let rest := runObsOps r.1 ops
    (rest.1, r.2 ++ rest.2)

/-- Is this event an invocation of a terminal user callback? -/
def ObsEvent.isTerminalCb {α : Type} : ObsEvent α → Bool
  | .callError _ => true
  | .callComplete => true
  | _ => false

/-- Is this event a dropped-notification hook invocation? -/
def ObsEvent.isDrop {α : Type} : ObsEvent α → Bool
  | .droppedNotification _ => true
  | _ => false

/-- Number of terminal user-callback invocations in a trace. -/
def countTerminalCb {α : Type} (evs : List (ObsEvent α)) : Nat :=
  evs.countP (fun e => e.isTerminalCb)

/-- Number of dropped-notification hook invocations in a trace. -/
def countDropped {α : Type} (evs : List (ObsEvent α)) : Nat :=
  evs.countP (fun e => e.isDrop)

/-! ## Subscriber (subscriber.go, and the older variant)

`subscriberImpl` combines an atomic status, a backpressure policy, a
`lockless` flag, an optional destination observer and an embedded
Subscription.  The destination is kept abstract: the events record the
calls the subscriber makes on it (`destination.NextWithContext`, ...) and
on its embedded Subscription (`unsubscribeCall` stands for
`s.Subscription.Unsubscribe()`).  The `nextDirect`/`errorDirect`/
`completeDirect` helpers of subscriber.go are nil unless installed by the
Observable facade, so the interface-dispatch branch is modelled.  The
mutexes only sequence calls (their effect is the linearization order);
the one scheduling-visible outcome is `TryLock` in Drop mode, which is an
input of each `next` call. -/

/-- subscriber.go: Backpressure policy. -/
inductive Backpressure where
  | block
  | drop
deriving DecidableEq, Repr

/-- Concurrency modes (spec section 3.5; subscriber.go lines 112-137).
`noopLock` is the mode the Go sources build with `xsync.NewMutexWithoutLock`
(a mutex object whose Lock/Unlock are no-ops but are still invoked). -/
inductive ConcurrencyMode where
  | safe
  | noopLock
  | eventuallySafe
  | singleProducer
deriving DecidableEq, Repr

/-- subscriber.go lines 173-208, the fields the branch logic consults:
the atomic status, the backpressure policy, the lockless flag and whether
`destination` is nil. -/
structure SubscriberImpl where
  status : Status := .active
  backpressure : Backpressure := .block
  lockless : Bool := false
  hasDestination : Bool := true
deriving DecidableEq, Repr

/-- subscriber.go lines 112-137 (`NewSubscriberWithConcurrencyMode`,
fresh-wrap case where the destination is not already a Subscriber):
mode selects the backpressure policy and the lockless flag. -/
def NewSubscriberWithConcurrencyMode (mode : ConcurrencyMode)
    (hasDestination : Bool) : SubscriberImpl :=
  match mode with
  | .safe => { backpressure := .block, lockless := false, hasDestination }
  | .noopLock => { backpressure := .block, lockless := false, hasDestination }
  | .eventuallySafe => { backpressure := .drop, lockless := false, hasDestination }
  | .singleProducer => { backpressure := .block, lockless := true, hasDestination }

/-- Externally observable effects of one subscriber method call. -/
inductive SubEvent (α : Type) where
  /-- `destination.NextWithContext(ctx, v)` was invoked -/
  | destNext (ctx : GoContext) (v : α)
  /-- `destination.ErrorWithContext(ctx, e)` was invoked -/
  | destError (ctx : GoContext) (e : Option GoErr)
  /-- `destination.CompleteWithContext(ctx)` was invoked -/
  | destComplete (ctx : GoContext)
  /-- `OnDroppedNotification` (global hook) received this notification -/
  | droppedNotification (n : Notification α)
  /-- `s.Subscription.Unsubscribe()` was invoked -/
  | unsubscribeCall
deriving DecidableEq, Repr

namespace SubscriberImpl

variable {α : Type}

/-- subscriber.go lines 216-260 (`NextWithContext`): return silently when
the destination is nil; lockless path drops on non-active status by atomic
load; locked path, in Drop mode, drops when `TryLock` fails (`tryLockOk`
is that call's contention outcome), then rechecks status under the lock
and forwards or drops. -/
def NextWithContext (s : SubscriberImpl) (ctx : GoContext) (v : α)
    (tryLockOk : Bool) : SubscriberImpl × List (SubEvent α) :=
  if ¬s.hasDestination then
    (s, [])
  else if s.lockless then
    if s.status ≠ .active then
      (s, [.droppedNotification (NewNotificationNext v)])
    else
      (s, [.destNext ctx v])
  else
    if s.backpressure = .drop ∧ ¬tryLockOk then
      (s, [.droppedNotification (NewNotificationNext v)])
    else if s.status ≠ .active then
      (s, [.droppedNotification (NewNotificationNext v)])
    else
      (s, [.destNext ctx v])

/-- subscriber.go lines 268-314 (`ErrorWithContext`): CAS active to
errored; the loser drops and still unsubscribes; the winner forwards to
the destination (when non-nil) and then unsubscribes. -/
def ErrorWithContext (s : SubscriberImpl) (ctx : GoContext)
    (err : Option GoErr) : SubscriberImpl × List (SubEvent α) :=
  if s.lockless then
    if s.status ≠ .active then
      (s, [.droppedNotification (NewNotificationError α err), .unsubscribeCall])
    else if ¬s.hasDestination then
      ({ s with status := .errored }, [.unsubscribeCall])
    else
      ({ s with status := .errored }, [.destError ctx err, .unsubscribeCall])
  else
    if s.status ≠ .active then
      (s, [.droppedNotification (NewNotificationError α err), .unsubscribeCall])
    else if s.hasDestination then
      ({ s with status := .errored }, [.destError ctx err, .unsubscribeCall])
    else
      ({ s with status := .errored }, [.unsubscribeCall])

/-- subscriber.go lines 322-368 (`CompleteWithContext`): CAS active to
completed; same structure as `ErrorWithContext`. -/
def CompleteWithContext (s : SubscriberImpl) (ctx : GoContext) :
    SubscriberImpl × List (SubEvent α) :=
  if s.lockless then
    if s.status ≠ .active then
      (s, [.droppedNotification (NewNotificationComplete α), .unsubscribeCall])
    else if ¬s.hasDestination then
      ({ s with status := .completed }, [.unsubscribeCall])
    else
      ({ s with status := .completed }, [.destComplete ctx, .unsubscribeCall])
  else
    if s.status ≠ .active then
      (s, [.droppedNotification (NewNotificationComplete α), .unsubscribeCall])
    else if s.hasDestination then
      ({ s with status := .completed }, [.destComplete ctx, .unsubscribeCall])
    else
      ({ s with status := .completed }, [.unsubscribeCall])

/-- subscriber.go lines 386-390 (`Unsubscribe`): best-effort CAS active to
completed; only the winner disposes the embedded Subscription.  The
destination observer is never called. -/
def Unsubscribe (s : SubscriberImpl) : SubscriberImpl × List (SubEvent α) :=
  if s.status = .active then
    ({ s with status := .completed }, [.unsubscribeCall])
  else
    (s, [])

/-- subscriber.go line 371. -/
def IsClosed (s : SubscriberImpl) : Bool := s.status ≠ .active

/-- subscriber.go line 376. -/
def HasThrown (s : SubscriberImpl) : Bool := s.status = .errored

/-- subscriber.go line 381. -/
def IsCompleted (s : SubscriberImpl) : Bool := s.status = .completed

/-- Older subscriber variant, `ErrorWithContext` (src/unnamed/part_001
lines 248-276): the CAS comes first, the winner forwards when the
destination is non-nil, the loser drops, and `unsubscribe` runs
unconditionally after either branch. -/
def ErrorWithContextV (s : SubscriberImpl) (ctx : GoContext)
    (err : Option GoErr) : SubscriberImpl × List (SubEvent α) :=
  if s.status = .active then
    ({ s with status := .errored },
      (if s.hasDestination then [.destError ctx err] else []) ++ [.unsubscribeCall])
  else
    (s, [.droppedNotification (NewNotificationError α err), .unsubscribeCall])

/-- Older subscriber variant, `CompleteWithContext` (src/unnamed/part_001
lines 284-312). -/
def CompleteWithContextV (s : SubscriberImpl) (ctx : GoContext) :
    SubscriberImpl × List (SubEvent α) :=
  if s.status = .active then
    ({ s with status := .completed },
      (if s.hasDestination then [.destComplete ctx] else []) ++ [.unsubscribeCall])
  else
    (s, [.droppedNotification (NewNotificationComplete α), .unsubscribeCall])

end SubscriberImpl

/-- One call into a subscriber.  `tryLockOk` is the contention outcome of
the `TryLock` a `next` call performs in Drop mode (unused elsewhere). -/
inductive SubOp (α : Type) where
  | next (ctx : GoContext) (v : α) (tryLockOk : Bool)
  | error (ctx : GoContext) (e : Option GoErr)
  | complete (ctx : GoContext)
  | unsubscribe
deriving DecidableEq, Repr

/-- Whether a subscriber operation is a terminal (`Error`/`Complete`) call. -/
def SubOp.isTerminal {α : Type} : SubOp α → Bool
  | .error _ _ => true
  | .complete _ => true
  | _ => false

/-- Dispatch one subscriber call. -/
def runSubOp {α : Type} (s : SubscriberImpl) :
    SubOp α → SubscriberImpl × List (SubEvent α)
  | .next ctx v lk => s.NextWithContext ctx v lk
  | .error ctx e => s.ErrorWithContext ctx e
  | .complete ctx => s.CompleteWithContext ctx
  | .unsubscribe => s.Unsubscribe

/-- Run a linearized sequence of subscriber calls. -/
def runSubOps {α : Type} (s : SubscriberImpl) :
    List (SubOp α) → SubscriberImpl × List (SubEvent α)
  | [] => (s, [])
  | op :: ops =>
    let r := runSubOp s op (α := α)
    let rest := runSubOps r.1 ops
    (rest.1, r.2 ++ rest.2)

/-- Is this event a call of a terminal method on the destination? -/
def SubEvent.isDestTerminal {α : Type} : SubEvent α → Bool
  | .destError _ _ => true
  | .destComplete _ => true
  | _ => false

/-- Is this event any call on the destination observer? -/
def SubEvent.isDestCall {α : Type} : SubEvent α → Bool
  | .destNext _ _ => true
  | .destError _ _ => true
  | .destComplete _ => true
  | _ => false

/-- Is this event a dropped-notification hook invocation? -/
def SubEvent.isDrop {α : Type} : SubEvent α → Bool
  | .droppedNotification _ => true
  | _ => false

/-- Is this event a disposal of the embedded Subscription? -/
def SubEvent.isUnsub {α : Type} : SubEvent α → Bool
  | .unsubscribeCall => true
  | _ => false

/-- Number of terminal destination calls in a trace. -/
def countDestTerminal {α : Type} (evs : List (SubEvent α)) : Nat :=
  evs.countP (fun e => e.isDestTerminal)

/-- Number of dropped-notification hook invocations in a trace. -/
def countDroppedS {α : Type} (evs : List (SubEvent α)) : Nat :=
  evs.countP (fun e => e.isDrop)

/-- Number of embedded-Subscription disposals in a trace. -/
def countUnsub {α : Type} (evs : List (SubEvent α)) : Nat :=
  evs.countP (fun e => e.isUnsub)

/-! ## Subscription (subscription.go)

`subscriptionImpl` holds a `done` flag, a list of plain finalizers and a
list of context-aware finalizers, all guarded by a mutex (which, in the
linearized model, is the atomicity of each operation).  A finalizer is
identified by an `id` so the theorems can speak of "each registered
finalizer"; its behavior is a normal return or a panic. -/

/-- A plain (context-less) finalizer: `Teardown` in subscription.go. -/
structure Finalizer where
  id : Nat
  behavior : CbOutcome
deriving DecidableEq, Repr

/-- A context-aware finalizer: `TeardownWithContext` in subscription.go.
Its behavior may depend on the context it is run with. -/
structure CtxFinalizer where
  id : Nat
  behavior : GoContext → CbOutcome

/-- subscription.go lines 51-57. -/
structure SubscriptionImpl where
  done : Bool := false
  finalizers : List Finalizer := []
  ctxFinalizers : List CtxFinalizer := []

/-- Externally observable effects of one subscription method call. -/
inductive TearEvent where
  /-- the plain finalizer with this id was invoked -/
  | runFinalizer (id : Nat)
  /-- the context-aware finalizer with this id was invoked with this context -/
  | runCtxFinalizer (id : Nat) (ctx : GoContext)
  /-- `panic(xerrors.Join(errs...))` escaped to the caller of unsubscribe -/
  | panicEscape (errs : List GoErr)
deriving DecidableEq, Repr

/-- subscription.go lines 267-279 (`execFinalizer`): run the finalizer,
converting a panic to an unsubscription error.  Returns the invocation
event and the collected error, if any. -/
def execFinalizer (f : Finalizer) : TearEvent × Option GoErr :=
  match f.behavior with
  | .ok => (.runFinalizer f.id, none)
  | .panics p => (.runFinalizer f.id, some (newUnsubscriptionError (recoverValueToError p)))

/-- subscription.go lines 281-307 (`execFinalizerWithContext`, the
`TeardownWithContext` case): run the finalizer with the given context,
converting a panic to an unsubscription error. -/
def execFinalizerWithContext (f : CtxFinalizer) (ctx : GoContext) :
    TearEvent × Option GoErr :=
  match f.behavior ctx with
  | .ok => (.runCtxFinalizer f.id ctx, none)
  | .panics p =>
    (.runCtxFinalizer f.id ctx, some (newUnsubscriptionError (recoverValueToError p)))

namespace SubscriptionImpl

/-- subscription.go lines 99-113 (`Add`): nil teardown is ignored; when
`done` is set the finalizer runs immediately with its error discarded
(the Go code assigns it to the blank identifier); otherwise it is
appended to the plain-finalizer list. -/
def Add (s : SubscriptionImpl) (teardown : Option Finalizer) :
    SubscriptionImpl × List TearEvent :=
  match teardown with
  | none => (s, [])
  | some f =>
    if s.done then
      (s, [(execFinalizer f).1])
    else
      ({ s with finalizers := s.finalizers ++ [f] }, [])

/-- subscription.go lines 117-131 (`AddWithContext`): like `Add`, but the
immediate run of a late registration uses a background context. -/
def AddWithContext (s : SubscriptionImpl) (teardown : Option CtxFinalizer) :
    SubscriptionImpl × List TearEvent :=
  match teardown with
  | none => (s, [])
  | some f =>
    if s.done then
      (s, [(execFinalizerWithContext f contextBackground).1])
    else
      ({ s with ctxFinalizers := s.ctxFinalizers ++ [f] }, [])

/-- subscription.go lines 196-230 (`UnsubscribeWithContext`): return if
already done; otherwise set `done`, snapshot and clear both lists, run all
plain finalizers then all context-aware finalizers with the supplied
context, collect their errors, and panic with the joined errors when any
finalizer panicked. -/
def UnsubscribeWithContext (s : SubscriptionImpl) (ctx : GoContext) :
    SubscriptionImpl × List TearEvent :=
  if s.done then
    (s, [])
  else
    let r1 := s.finalizers.map execFinalizer
    let r2 := s.ctxFinalizers.map (fun f => execFinalizerWithContext f ctx)
    let errs := (r1 ++ r2).filterMap (fun r => r.2)
    let evs := (r1 ++ r2).map (fun r => r.1)
    ({ done := true, finalizers := [], ctxFinalizers := [] },
      if errs = [] then evs else evs ++ [.panicEscape errs])

/-- subscription.go lines 156-190 (`Unsubscribe`): textually identical to
`UnsubscribeWithContext` except that the context-aware finalizers receive
a background context. -/
def Unsubscribe (s : SubscriptionImpl) : SubscriptionImpl × List TearEvent :=
  s.UnsubscribeWithContext contextBackground

/-- subscription.go line 237. -/
def IsClosed (s : SubscriptionImpl) : Bool := s.done

end SubscriptionImpl

/-- One call into a subscription. -/
inductive TearOp where
  | add (t : Option Finalizer)
  | addWithContext (t : Option CtxFinalizer)
  | unsubscribe
  | unsubscribeWithContext (ctx : GoContext)

/-- Dispatch one subscription call. -/
def runTearOp (s : SubscriptionImpl) : TearOp → SubscriptionImpl × List TearEvent
  | .add t => s.Add t
  | .addWithContext t => s.AddWithContext t
  | .unsubscribe => s.Unsubscribe
  | .unsubscribeWithContext ctx => s.UnsubscribeWithContext ctx

/-- Run a linearized sequence of subscription calls. -/
def runTearOps (s : SubscriptionImpl) :
    List TearOp → SubscriptionImpl × List TearEvent
  | [] => (s, [])
  | op :: ops =>
    let r := runTearOp s op
    let rest := runTearOps r.1 ops
    (rest.1, r.2 ++ rest.2)

/-- Project a plain-finalizer run out of a teardown event. -/
def plainRunId : TearEvent → Option Nat
  | .runFinalizer i => some i
  | _ => none

/-- Project a context-aware-finalizer run out of a teardown event. -/
def ctxRunId : TearEvent → Option Nat
  | .runCtxFinalizer i _ => some i
  | _ => none

/-! ## The Average operator (operator_math.go lines 45-75)

`Average` subscribes to the source with an internal observer that
accumulates `sum` (a float64) and `count` (an int64) and, on the source's
Complete, emits the average — with the empty-source branch falling through
(no early return), so the destination receives Next(NaN), Complete, and
then a second Next(0/0) and Complete.  The destination handed to the
factory is the Subscriber the Observable facade wraps around the
downstream observer. -/

/-- The float64 values the Average operator can produce.  Only the
distinctions the kernel's arithmetic (`sum += float64(v)`,
`sum / float64(count)`, `math.NaN()`) can reach are modelled; signed
zeros and rounding are not needed by any claim. -/
inductive F64 where
  | nan
  | inf
  | ninf
  | fin (q : ℚ)
deriving DecidableEq, Repr

/-- Go float64 addition on the modelled values. -/
def f64Add : F64 → F64 → F64
  | .nan, _ => .nan
  | _, .nan => .nan
  | .inf, .ninf => .nan
  | .ninf, .inf => .nan
  | .inf, _ => .inf
  | _, .inf => .inf
  | .ninf, _ => .ninf
  | _, .ninf => .ninf
  | .fin a, .fin b => .fin (a + b)

/-- Go float64 division on the modelled values; `0.0 / 0.0` is NaN. -/
def f64Div : F64 → F64 → F64
  | .nan, _ => .nan
  | _, .nan => .nan
  | .inf, .fin b => if b < 0 then .ninf else .inf
  | .ninf, .fin b => if b < 0 then .inf else .ninf
  | .inf, _ => .nan
  | .ninf, _ => .nan
  | .fin _, .inf => .fin 0
  | .fin _, .ninf => .fin 0
  | .fin a, .fin b =>
    if b = 0 then
      if a = 0 then .nan else if a < 0 then .ninf else .inf
    else
      .fin (a / b)

/-- Go `float64(n)` for an int64. -/
def goFloatOfInt (n : Int) : F64 := .fin n

/-- operator_math.go lines 59-68: the body of the on-complete callback of
Average's internal observer, translated branch by branch — the `count == 0`
branch has no early return, so control falls through to the general
emission. -/
def averageOnComplete (sum : F64) (count : Int) (ctx : GoContext)
    (destination : SubscriberImpl) : SubscriberImpl × List (SubEvent F64) :=
  let r1 :=
    if count = 0 then
      let ra := destination.NextWithContext ctx F64.nan true
      let rb := ra.1.CompleteWithContext (α := F64) ctx
      (rb.1, ra.2 ++ rb.2)
    else
      (destination, [])
  let avg := f64Div sum (goFloatOfInt count)
  let r2 := r1.1.NextWithContext ctx avg true
  let r3 := r2.1.CompleteWithContext (α := F64) ctx
  (r3.1, r1.2 ++ r2.2 ++ r3.2)

/-- A notification delivered by the source to Average's internal observer
(the source element type is taken to be int64). -/
inductive AvgSrc where
  | next (v : Int)
  | error (e : Option GoErr)
  | complete
deriving DecidableEq, Repr

/-- Accumulator state of one Average subscription. -/
structure AvgState where
  sum : F64 := .fin 0
  count : Int := 0
  destination : SubscriberImpl

/-- operator_math.go lines 48-69: the internal observer's reaction to one
source notification.  Next accumulates; Error is forwarded to the
destination; Complete runs `averageOnComplete`. -/
def avgStep (st : AvgState) : AvgSrc → AvgState × List (SubEvent F64)
  | .next v =>
    ({ st with sum := f64Add st.sum (goFloatOfInt v), count := st.count + 1 }, [])
  | .error e =>
    let r := st.destination.ErrorWithContext (α := F64) contextBackground e
    ({ st with destination := r.1 }, r.2)
  | .complete =>
    let r := averageOnComplete st.sum st.count contextBackground st.destination
    ({ st with destination := r.1 }, r.2)

/-- Run a whole source emission sequence through one Average subscription. -/
def avgRun (st : AvgState) : List AvgSrc → AvgState × List (SubEvent F64)
  | [] => (st, [])
  | n :: ns =>
    let r := avgStep st n
    let rest := avgRun r.1 ns
    (rest.1, r.2 ++ rest.2)

/-- Modelled from the spec: the Observable facade (`SubscribeWithContext`,
spec section 4.4) is not among the sources; per the spec it wraps the
downstream observer in a Subscriber carrying the Observable's declared
concurrency mode before invoking the factory.  `Average` builds its
Observable with `NewUnsafeObservableWithContext`, whose mode uses the
no-op mutex; the factory therefore starts with this destination state. -/
def averageSubscribeState : AvgState :=
  { sum := .fin 0, count := 0,
    destination := NewSubscriberWithConcurrencyMode .noopLock true }

/-! ## Concrete fixtures used to instantiate the universal theorems -/

/-- An observer whose three callbacks are present and return normally. -/
def obsAllOk : ObserverImpl Int :=
  { status := .active, capturePanics := true,
    onNext := some (fun _ => .ok), onError := some (fun _ => .ok),
    onComplete := some .ok }

/-- An observer with capture enabled, no error callback, and a next
callback that panics with the string "x". -/
def obsNextPanics : ObserverImpl Int :=
  { status := .active, capturePanics := true,
    onNext := some (fun _ => .panics (.str "x")), onError := none,
    onComplete := none }

/-- Three concurrent terminal calls (linearized). -/
def opsTermW : List (ObsOp Int) :=
  [.error contextBackground (some (.msg "boom")), .complete contextBackground,
   .error contextBackground none]

/-- A fresh safe-mode subscriber with a destination. -/
def subW : SubscriberImpl := NewSubscriberWithConcurrencyMode .safe true

/-- Three concurrent terminal calls on a subscriber (linearized). -/
def subOpsTermW : List (SubOp Int) :=
  [.complete contextBackground, .error contextBackground (some (.msg "boom")),
   .complete contextBackground]

/-- A subscription holding two plain finalizers and one context-aware
finalizer, none of which panic. -/
def subscriptionW : SubscriptionImpl :=
  { done := false,
    finalizers := [⟨1, .ok⟩, ⟨2, .ok⟩],
    ctxFinalizers := [⟨3, fun _ => .ok⟩] }

/-- A context distinguishable from the background context. -/
def ctxW : GoContext := { key := 5 }

/-! ## Helper lemmas -/

/-- Running a plain finalizer always produces exactly its invocation event. -/
lemma execFinalizer_fst (f : Finalizer) :
    (execFinalizer f).1 = .runFinalizer f.id := by
  rcases f with ⟨i, b⟩
  cases b <;> rfl

/-- Running a context-aware finalizer always produces exactly its
invocation event, carrying the context it was run with. -/
lemma execFinalizerWithContext_fst (f : CtxFinalizer) (ctx : GoContext) :
    (execFinalizerWithContext f ctx).1 = .runCtxFinalizer f.id ctx := by
  cases h : f.behavior ctx <;> simp [execFinalizerWithContext, h]

/-! ## Claim theorems -/

/-- C6: on a disposed subscription, `Add` with a non-nil finalizer runs it
exactly once, synchronously, before returning, and does not append it to
the finalizer list; `AddWithContext` does the same, running the finalizer
with a background context. -/
theorem c6_late_add_runs_immediately (s : SubscriptionImpl) (f : Finalizer)
    (g : CtxFinalizer) (h : s.done = true) :
    s.Add (some f) = (s, [.runFinalizer f.id]) ∧
    s.AddWithContext (some g) = (s, [.runCtxFinalizer g.id contextBackground]) := by
  constructor
  · simp [SubscriptionImpl.Add, h, execFinalizer_fst]
  · simp [SubscriptionImpl.AddWithContext, h, execFinalizerWithContext_fst]

/-- Witness for C6 at a concrete disposed subscription. -/
theorem c6_late_add_runs_immediately_witness :
    (SubscriptionImpl.done { done := true } = true) ∧
    (SubscriptionImpl.Add { done := true } (some ⟨7, .ok⟩) =
        ({ done := true }, [.runFinalizer 7]) ∧
      SubscriptionImpl.AddWithContext { done := true } (some ⟨8, fun _ => .ok⟩) =
        ({ done := true }, [.runCtxFinalizer 8 contextBackground])) :=
  ⟨rfl, c6_late_add_runs_immediately { done := true } ⟨7, .ok⟩ ⟨8, fun _ => .ok⟩ rfl⟩

/-- C3, counterexample: with capture enabled and no error callback, a
`next` whose callback panics leaves the status Active, not Errored — the
catch block of `tryNext` (observer.go lines 216-224) routes the wrapped
panic to the unhandled-error hook without any status transition. -/
theorem c3_counterexample :
    (ObserverImpl.NextWithContext obsNextPanics contextBackground 1).1.status
        = Status.active ∧
    ¬ (ObserverImpl.NextWithContext obsNextPanics contextBackground 1).1.status
        = Status.errored := by
  constructor
  · rfl
  · decide

/-- C3, amended: with capture enabled (and not disabled by the context)
and no error callback, a single `next(v)` whose callback panics leaves the
observer completely unchanged — in particular the status stays Active —
and produces exactly one unhandled-error hook invocation carrying the
wrapped panic payload; no panic escapes to the caller. -/
theorem c3_capture_containment (α : Type) (o : ObserverImpl α)
    (ctx : GoContext) (v : α) (f : α → CbOutcome) (p : PanicValue)
    (hst : o.status = .active) (hcap : o.capturePanics = true)
    (hctx : isObserverPanicCaptureDisabled ctx = false)
    (herr : o.onError = none) (hnext : o.onNext = some f)
    (hfv : f v = .panics p) :
    o.NextWithContext ctx v =
      (o, [.callNext v,
           .unhandledError (newObserverError (recoverValueToError p))]) := by
  simp [ObserverImpl.NextWithContext, ObserverImpl.tryNext, hst, hcap, hctx,
    herr, hnext, hfv]

/-- Witness for the amended C3 at a concrete panicking observer. -/
theorem c3_capture_containment_witness :
    (obsNextPanics.status = .active ∧ obsNextPanics.capturePanics = true ∧
      isObserverPanicCaptureDisabled contextBackground = false ∧
      obsNextPanics.onError = none ∧
      obsNextPanics.onNext = some (fun _ => .panics (.str "x"))) ∧
    ObserverImpl.NextWithContext obsNextPanics contextBackground 1 =
      (obsNextPanics,
       [.callNext 1,
        .unhandledError (newObserverError (recoverValueToError (.str "x")))]) :=
  ⟨⟨rfl, rfl, rfl, rfl, rfl⟩,
    c3_capture_containment Int obsNextPanics contextBackground 1
      (fun _ => .panics (.str "x")) (.str "x") rfl rfl rfl rfl rfl rfl⟩

/-- C9: when capture is disabled — on the observer itself or through the
per-subscription context flag — a `next(v)` whose callback panics lets the
panic escape to the caller and leaves the observer (hence its Active
status) unchanged. -/
theorem c9_capture_opt_out (α : Type) (o : ObserverImpl α)
    (ctx : GoContext) (v : α) (f : α → CbOutcome) (p : PanicValue)
    (hst : o.status = .active) (hnext : o.onNext = some f)
    (hfv : f v = .panics p)
    (hoff : o.capturePanics = false ∨ isObserverPanicCaptureDisabled ctx = true) :
    o.NextWithContext ctx v = (o, [.callNext v, .panicEscaped p]) := by
  rcases hoff with hoff | hoff <;>
    simp [ObserverImpl.NextWithContext, ObserverImpl.tryNext, hst, hnext,
      hfv, hoff]

/-- Witness for C9: the fixture observer run with an opt-out context. -/
theorem c9_capture_opt_out_witness :
    (obsNextPanics.status = .active ∧
      obsNextPanics.onNext = some (fun _ => .panics (.str "x")) ∧
      isObserverPanicCaptureDisabled
        (WithObserverPanicCaptureDisabled contextBackground) = true) ∧
    ObserverImpl.NextWithContext obsNextPanics
        (WithObserverPanicCaptureDisabled contextBackground) 1 =
      (obsNextPanics, [.callNext 1, .panicEscaped (.str "x")]) :=
  ⟨⟨rfl, rfl, rfl⟩,
    c9_capture_opt_out Int obsNextPanics
      (WithObserverPanicCaptureDisabled contextBackground) 1
      (fun _ => .panics (.str "x")) (.str "x") rfl rfl rfl (Or.inr rfl)⟩

/-- C10: on an Active subscriber, `Unsubscribe` sets the status to
Completed (so `IsClosed` and `IsCompleted` then report true and
`HasThrown` false) and disposes the embedded Subscription, and its whole
effect trace is that single disposal — the destination observer's
Complete is never invoked; on a non-Active subscriber it does nothing. -/
theorem c10_unsubscribe_masquerades_completion (α : Type) (s : SubscriberImpl) :
    (s.status = .active →
      SubscriberImpl.Unsubscribe s (α := α) =
        ({ s with status := .completed }, [.unsubscribeCall]) ∧
      SubscriberImpl.IsClosed { s with status := Status.completed } = true ∧
      SubscriberImpl.IsCompleted { s with status := Status.completed } = true ∧
      SubscriberImpl.HasThrown { s with status := Status.completed } = false) ∧
    (s.status ≠ .active → SubscriberImpl.Unsubscribe s (α := α) = (s, [])) := by
  constructor
  · intro h
    refine ⟨by simp [SubscriberImpl.Unsubscribe, h], ?_, ?_, ?_⟩ <;>
      simp [SubscriberImpl.IsClosed, SubscriberImpl.IsCompleted,
        SubscriberImpl.HasThrown]
  · intro h
    simp [SubscriberImpl.Unsubscribe, h]

/-- Witness for C10 at a concrete Active subscriber. -/
theorem c10_unsubscribe_masquerades_completion_witness :
    (subW.status = .active ∧
      SubscriberImpl.Unsubscribe subW (α := Int) =
        ({ subW with status := .completed }, [.unsubscribeCall])) ∧
    (SubscriberImpl.status { subW with status := Status.completed } ≠ .active ∧
      SubscriberImpl.Unsubscribe { subW with status := Status.completed }
          (α := Int) =
        ({ subW with status := Status.completed }, [])) :=
  ⟨⟨rfl, ((c10_unsubscribe_masquerades_completion Int subW).1 rfl).1⟩,
   ⟨by decide,
    (c10_unsubscribe_masquerades_completion Int
      { subW with status := Status.completed }).2 (by decide)⟩⟩

/-- C4: in every concurrency mode (both lockless and locked paths, in both
the current subscriber and the older variant), every `error` or `complete`
call disposes the embedded Subscription exactly once, as the very last of
its effects — after the notification has been forwarded to the destination
(CAS winner with a destination) or dropped via the hook (CAS loser). -/
theorem c4_terminal_always_disposes (α : Type) (s : SubscriberImpl)
    (ctx : GoContext) (e : Option GoErr) :
    (countUnsub (SubscriberImpl.ErrorWithContext s ctx e (α := α)).2 = 1 ∧
      (SubscriberImpl.ErrorWithContext s ctx e (α := α)).2.getLast?
        = some .unsubscribeCall) ∧
    (countUnsub (SubscriberImpl.CompleteWithContext s ctx (α := α)).2 = 1 ∧
      (SubscriberImpl.CompleteWithContext s ctx (α := α)).2.getLast?
        = some .unsubscribeCall) ∧
    (countUnsub (SubscriberImpl.ErrorWithContextV s ctx e (α := α)).2 = 1 ∧
      (SubscriberImpl.ErrorWithContextV s ctx e (α := α)).2.getLast?
        = some .unsubscribeCall) ∧
    (countUnsub (SubscriberImpl.CompleteWithContextV s ctx (α := α)).2 = 1 ∧
      (SubscriberImpl.CompleteWithContextV s ctx (α := α)).2.getLast?
        = some .unsubscribeCall) ∧
    (s.status = .active → s.hasDestination = true →
      (SubscriberImpl.ErrorWithContext s ctx e (α := α)).2
        = [.destError ctx e, .unsubscribeCall] ∧
      (SubscriberImpl.CompleteWithContext s ctx (α := α)).2
        = [.destComplete ctx, .unsubscribeCall]) ∧
    (s.status ≠ .active →
      (SubscriberImpl.ErrorWithContext s ctx e (α := α)).2
        = [.droppedNotification (NewNotificationError α e), .unsubscribeCall] ∧
      (SubscriberImpl.CompleteWithContext s ctx (α := α)).2
        = [.droppedNotification (NewNotificationComplete α), .unsubscribeCall]) := by
  refine ⟨?_, ?_, ?_, ?_, ?_, ?_⟩
  · unfold SubscriberImpl.ErrorWithContext
    split_ifs <;>
      simp_all [countUnsub, SubEvent.isUnsub, List.getLast?]
  · unfold SubscriberImpl.CompleteWithContext
    split_ifs <;>
      simp_all [countUnsub, SubEvent.isUnsub, List.getLast?]
  · unfold SubscriberImpl.ErrorWithContextV
    split_ifs <;>
      simp_all [countUnsub, SubEvent.isUnsub, List.getLast?]
  · unfold SubscriberImpl.CompleteWithContextV
    split_ifs <;>
      simp_all [countUnsub, SubEvent.isUnsub, List.getLast?]
  · intro h1 h2
    constructor <;>
      simp [SubscriberImpl.ErrorWithContext, SubscriberImpl.CompleteWithContext,
        h1, h2]
  · intro h1
    constructor <;>
      simp [SubscriberImpl.ErrorWithContext, SubscriberImpl.CompleteWithContext,
        h1]

/-- Witness for C4 at concrete subscribers: a drop-backpressure one and,
for the conditional conjuncts, a fresh Active one and a completed one. -/
theorem c4_terminal_always_disposes_witness :
    countUnsub
      (SubscriberImpl.ErrorWithContext
        (NewSubscriberWithConcurrencyMode .eventuallySafe true) ctxW
        (some (.msg "boom")) (α := Int)).2 = 1 ∧
    (SubscriberImpl.CompleteWithContext
        (NewSubscriberWithConcurrencyMode .eventuallySafe true) ctxW
        (α := Int)).2.getLast? = some .unsubscribeCall ∧
    (subW.status = .active ∧ subW.hasDestination = true ∧
      (SubscriberImpl.ErrorWithContext subW ctxW (some (.msg "boom"))
          (α := Int)).2
        = [.destError ctxW (some (.msg "boom")), .unsubscribeCall]) ∧
    (SubscriberImpl.status { subW with status := Status.completed }
        ≠ .active ∧
      (SubscriberImpl.CompleteWithContext { subW with status := Status.completed }
          ctxW (α := Int)).2
        = [.droppedNotification (NewNotificationComplete Int), .unsubscribeCall]) :=
  ⟨((c4_terminal_always_disposes Int
      (NewSubscriberWithConcurrencyMode .eventuallySafe true) ctxW
      (some (.msg "boom"))).1).1,
   ((c4_terminal_always_disposes Int
      (NewSubscriberWithConcurrencyMode .eventuallySafe true) ctxW
      (some (.msg "boom"))).2.1).2,
   ⟨rfl, rfl,
    ((c4_terminal_always_disposes Int subW ctxW
        (some (.msg "boom"))).2.2.2.2.1 rfl rfl).1⟩,
   ⟨by decide,
    ((c4_terminal_always_disposes Int { subW with status := Status.completed }
        ctxW (some (.msg "boom"))).2.2.2.2.2 (by decide)).2⟩⟩

/-- C8: subscribing the Average operator to a source that emits no Next
value and then completes, the downstream observer receives exactly one
Next carrying NaN followed by exactly one Complete and nothing else; the
fall-through in the empty-source branch of the operator re-emits a second
Next and Complete, but the wrapping Subscriber, already Completed, routes
both to the dropped-notification hook instead of the destination. -/
theorem c8_average_empty_source :
    ((avgRun averageSubscribeState [AvgSrc.complete]).2.filter
        (fun e => e.isDestCall))
      = [SubEvent.destNext contextBackground F64.nan,
         SubEvent.destComplete contextBackground] ∧
    countDroppedS (avgRun averageSubscribeState [AvgSrc.complete]).2 = 2 := by
  constructor <;> rfl

/-! ## Step and run lemmas for the termination-once and
no-next-after-terminal claims -/

/-- `tryError` on a present callback invokes it exactly once and never
touches the dropped-notification hook. -/
lemma tryError_counts {α : Type} (o : ObserverImpl α) (ctx : GoContext)
    (e : Option GoErr) (f : Option GoErr → CbOutcome) (h : o.onError = some f) :
    countTerminalCb (o.tryError ctx e) = 1 ∧ countDropped (o.tryError ctx e) = 0 := by
  unfold ObserverImpl.tryError
  rw [h]
  cases hfe : f e <;>
    simp [hfe, countTerminalCb, countDropped, ObsEvent.isTerminalCb,
      ObsEvent.isDrop] <;>
    split_ifs <;>
    simp [countTerminalCb, countDropped, ObsEvent.isTerminalCb, ObsEvent.isDrop]

/-- `tryComplete` on a present callback invokes it exactly once and never
touches the dropped-notification hook. -/
lemma tryComplete_counts {α : Type} (o : ObserverImpl α) (ctx : GoContext)
    (b : CbOutcome) (h : o.onComplete = some b) :
    countTerminalCb (o.tryComplete ctx) = 1 ∧ countDropped (o.tryComplete ctx) = 0 := by
  unfold ObserverImpl.tryComplete
  rw [h]
  cases b <;>
    simp [countTerminalCb, countDropped, ObsEvent.isTerminalCb, ObsEvent.isDrop] <;>
    split_ifs <;>
    simp [countTerminalCb, countDropped, ObsEvent.isTerminalCb, ObsEvent.isDrop]

/-- One terminal observer call either loses — no terminal callback, one
drop, state untouched — or wins — one terminal callback, no drop, and the
CAS moved the status from Active to a terminal value. -/
lemma obs_terminal_step {α : Type} (o : ObserverImpl α) (op : ObsOp α)
    (hop : op.isTerminal = true) :
    (countTerminalCb (runObsOp o op).2 = 0 ∧ countDropped (runObsOp o op).2 = 1 ∧
      (runObsOp o op).1 = o) ∨
    (countTerminalCb (runObsOp o op).2 = 1 ∧ countDropped (runObsOp o op).2 = 0 ∧
      o.status = .active ∧ (runObsOp o op).1.status ≠ .active) := by
  cases op with
  | next ctx v => simp [ObsOp.isTerminal] at hop
  | error ctx e =>
    simp only [runObsOp, ObserverImpl.ErrorWithContext]
    by_cases hc : o.onError.isNone = true ∨ o.status ≠ Status.active
    · rw [if_pos hc]
      left
      simp [countTerminalCb, countDropped, ObsEvent.isTerminalCb, ObsEvent.isDrop]
    · rw [if_neg hc]
      right
      have h1 : ¬ o.onError.isNone = true := (not_or.mp hc).1
      have h2 : o.status = .active := not_ne_iff.mp (not_or.mp hc).2
      cases ho : o.onError with
      | none => simp [ho] at h1
      | some f =>
        have hcnt := tryError_counts o ctx e f ho
        exact ⟨hcnt.1, hcnt.2, h2, by simp⟩
  | complete ctx =>
    simp only [runObsOp, ObserverImpl.CompleteWithContext]
    by_cases hc : o.onComplete.isNone = true ∨ o.status ≠ Status.active
    · rw [if_pos hc]
      left
      simp [countTerminalCb, countDropped, ObsEvent.isTerminalCb, ObsEvent.isDrop]
    · rw [if_neg hc]
      right
      have h1 : ¬ o.onComplete.isNone = true := (not_or.mp hc).1
      have h2 : o.status = .active := not_ne_iff.mp (not_or.mp hc).2
      cases ho : o.onComplete with
      | none => simp [ho] at h1
      | some b =>
        have hcnt := tryComplete_counts o ctx b ho
        exact ⟨hcnt.1, hcnt.2, h2, by simp⟩

/-- No observer call can bring a terminal status back to Active. -/
lemma obs_step_status {α : Type} (o : ObserverImpl α) (op : ObsOp α)
    (h : (runObsOp o op).1.status = .active) : o.status = .active := by
  cases op with
  | next ctx v =>
    simp only [runObsOp, ObserverImpl.NextWithContext] at h
    by_cases hc : o.onNext.isNone = true ∨ o.status ≠ Status.active
    · rw [if_pos hc] at h; exact h
    · rw [if_neg hc] at h; exact h
  | error ctx e =>
    by_cases hc : o.onError.isNone = true ∨ o.status ≠ Status.active
    · simp only [runObsOp, ObserverImpl.ErrorWithContext] at h
      rw [if_pos hc] at h
      exact h
    · exact not_ne_iff.mp (not_or.mp hc).2
  | complete ctx =>
    by_cases hc : o.onComplete.isNone = true ∨ o.status ≠ Status.active
    · simp only [runObsOp, ObserverImpl.CompleteWithContext] at h
      rw [if_pos hc] at h
      exact h
    · exact not_ne_iff.mp (not_or.mp hc).2

/-- Trace counters distribute over concatenation. -/
lemma countTerminalCb_append {α : Type} (a b : List (ObsEvent α)) :
    countTerminalCb (a ++ b) = countTerminalCb a + countTerminalCb b :=
  List.countP_append _ _ _

/-- Trace counters distribute over concatenation. -/
lemma countDropped_append {α : Type} (a b : List (ObsEvent α)) :
    countDropped (a ++ b) = countDropped a + countDropped b :=
  List.countP_append _ _ _

/-- Running any linearization of terminal observer calls invokes a
terminal callback at most once; every call ends in exactly one of
{terminal callback invoked, notification dropped}; and a non-Active
observer never invokes a terminal callback. -/
lemma obs_run_terminal {α : Type} :
    ∀ (ops : List (ObsOp α)) (o : ObserverImpl α),
      (∀ op ∈ ops, op.isTerminal = true) →
      countTerminalCb (runObsOps o ops).2 ≤ 1 ∧
      countTerminalCb (runObsOps o ops).2 + countDropped (runObsOps o ops).2
        = ops.length ∧
      (o.status ≠ .active → countTerminalCb (runObsOps o ops).2 = 0) := by
  intro ops
  induction ops with
  | nil => intro o _; simp [runObsOps, countTerminalCb, countDropped]
  | cons op ops ih =>
    intro o h
    have hop := h op (List.mem_cons_self op ops)
    have hops : ∀ x ∈ ops, x.isTerminal = true :=
      fun x hx => h x (List.mem_cons_of_mem op hx)
    have hrun : runObsOps o (op :: ops)
        = ((runObsOps (runObsOp o op).1 ops).1,
            (runObsOp o op).2 ++ (runObsOps (runObsOp o op).1 ops).2) := rfl
    rcases obs_terminal_step o op hop with ⟨h1, h2, h3⟩ | ⟨h1, h2, h3, h4⟩
    · have ihh := ih (runObsOp o op).1 hops
      rw [hrun]
      simp only [countTerminalCb_append, countDropped_append, h1, h2]
      refine ⟨by omega, by simp; omega, ?_⟩
      intro hna
      have : (runObsOp o op).1.status ≠ .active := by rw [h3]; exact hna
      have := ihh.2.2 this
      omega
    · have ihh := ih (runObsOp o op).1 hops
      have hz := ihh.2.2 h4
      rw [hrun]
      simp only [countTerminalCb_append, countDropped_append, h1, h2]
      refine ⟨by omega, by simp; omega, ?_⟩
      intro hna
      exact absurd h3 hna

/-- Trace counters distribute over concatenation. -/
lemma countDestTerminal_append {α : Type} (a b : List (SubEvent α)) :
    countDestTerminal (a ++ b) = countDestTerminal a + countDestTerminal b :=
  List.countP_append _ _ _

/-- Trace counters distribute over concatenation. -/
lemma countDroppedS_append {α : Type} (a b : List (SubEvent α)) :
    countDroppedS (a ++ b) = countDroppedS a + countDroppedS b :=
  List.countP_append _ _ _

/-- One terminal subscriber call (destination present) either loses — no
destination terminal call, one drop, state untouched — or wins — one
destination terminal call, no drop, CAS moved the status out of Active. -/
lemma sub_terminal_step {α : Type} (s : SubscriberImpl) (op : SubOp α)
    (hop : op.isTerminal = true) (hd : s.hasDestination = true) :
    (countDestTerminal (runSubOp s op (α := α)).2 = 0 ∧
      countDroppedS (runSubOp s op (α := α)).2 = 1 ∧
      (runSubOp s op (α := α)).1 = s) ∨
    (countDestTerminal (runSubOp s op (α := α)).2 = 1 ∧
      countDroppedS (runSubOp s op (α := α)).2 = 0 ∧
      s.status = .active ∧ (runSubOp s op (α := α)).1.status ≠ .active ∧
      (runSubOp s op (α := α)).1.hasDestination = true) := by
  cases op with
  | next ctx v lk => simp [SubOp.isTerminal] at hop
  | unsubscribe => simp [SubOp.isTerminal] at hop
  | error ctx e =>
    by_cases hst : s.status = Status.active
    · right
      refine ⟨?_, ?_, hst, ?_, ?_⟩ <;>
        simp [runSubOp, SubscriberImpl.ErrorWithContext, hst, hd,
          countDestTerminal, countDroppedS, SubEvent.isDestTerminal,
          SubEvent.isDrop] <;>
        split_ifs <;>
        simp [countDestTerminal, countDroppedS, SubEvent.isDestTerminal,
          SubEvent.isDrop]
    · left
      refine ⟨?_, ?_, ?_⟩ <;>
        simp [runSubOp, SubscriberImpl.ErrorWithContext, hst,
          countDestTerminal, countDroppedS, SubEvent.isDestTerminal,
          SubEvent.isDrop] <;>
        split_ifs <;>
        simp [countDestTerminal, countDroppedS, SubEvent.isDestTerminal,
          SubEvent.isDrop]
  | complete ctx =>
    by_cases hst : s.status = Status.active
    · right
      refine ⟨?_, ?_, hst, ?_, ?_⟩ <;>
        simp [runSubOp, SubscriberImpl.CompleteWithContext, hst, hd,
          countDestTerminal, countDroppedS, SubEvent.isDestTerminal,
          SubEvent.isDrop] <;>
        split_ifs <;>
        simp [countDestTerminal, countDroppedS, SubEvent.isDestTerminal,
          SubEvent.isDrop]
    · left
      refine ⟨?_, ?_, ?_⟩ <;>
        simp [runSubOp, SubscriberImpl.CompleteWithContext, hst,
          countDestTerminal, countDroppedS, SubEvent.isDestTerminal,
          SubEvent.isDrop] <;>
        split_ifs <;>
        simp [countDestTerminal, countDroppedS, SubEvent.isDestTerminal,
          SubEvent.isDrop]

/-- No subscriber call can bring a terminal status back to Active. -/
lemma sub_step_status {α : Type} (s : SubscriberImpl) (op : SubOp α)
    (h : (runSubOp s op (α := α)).1.status = .active) : s.status = .active := by
  cases op with
  | next ctx v lk =>
    by_cases hst : s.status = Status.active
    · exact hst
    · simp only [runSubOp, SubscriberImpl.NextWithContext] at h
      split_ifs at h <;> simp_all
  | error ctx e =>
    by_cases hst : s.status = Status.active
    · exact hst
    · simp only [runSubOp, SubscriberImpl.ErrorWithContext] at h
      split_ifs at h <;> simp_all
  | complete ctx =>
    by_cases hst : s.status = Status.active
    · exact hst
    · simp only [runSubOp, SubscriberImpl.CompleteWithContext] at h
      split_ifs at h <;> simp_all
  | unsubscribe =>
    by_cases hst : s.status = Status.active
    · exact hst
    · simp only [runSubOp, SubscriberImpl.Unsubscribe] at h
      split_ifs at h <;> simp_all

/-- Running any linearization of terminal subscriber calls forwards a
terminal to the destination at most once; every call ends in exactly one
of {terminal forwarded, notification dropped}; a non-Active subscriber
never forwards a terminal. -/
lemma sub_run_terminal {α : Type} :
    ∀ (ops : List (SubOp α)) (s : SubscriberImpl),
      (∀ op ∈ ops, op.isTerminal = true) → s.hasDestination = true →
      countDestTerminal (runSubOps s ops (α := α)).2 ≤ 1 ∧
      countDestTerminal (runSubOps s ops (α := α)).2 +
        countDroppedS (runSubOps s ops (α := α)).2 = ops.length ∧
      (s.status ≠ .active → countDestTerminal (runSubOps s ops (α := α)).2 = 0) := by
  intro ops
  induction ops with
  | nil => intro s _ _; simp [runSubOps, countDestTerminal, countDroppedS]
  | cons op ops ih =>
    intro s h hd
    have hop := h op (List.mem_cons_self op ops)
    have hops : ∀ x ∈ ops, x.isTerminal = true :=
      fun x hx => h x (List.mem_cons_of_mem op hx)
    have hrun : runSubOps s (op :: ops) (α := α)
        = ((runSubOps (runSubOp s op (α := α)).1 ops (α := α)).1,
            (runSubOp s op (α := α)).2 ++
              (runSubOps (runSubOp s op (α := α)).1 ops (α := α)).2) := rfl
    rcases sub_terminal_step s op hop hd with ⟨h1, h2, h3⟩ | ⟨h1, h2, h3, h4, h5⟩
    · have ihh := ih (runSubOp s op (α := α)).1 hops (by rw [h3]; exact hd)
      rw [hrun]
      simp only [countDestTerminal_append, countDroppedS_append, h1, h2]
      refine ⟨by omega, by simp; omega, ?_⟩
      intro hna
      have : (runSubOp s op (α := α)).1.status ≠ .active := by rw [h3]; exact hna
      have := ihh.2.2 this
      omega
    · have ihh := ih (runSubOp s op (α := α)).1 hops h5
      have hz := ihh.2.2 h4
      rw [hrun]
      simp only [countDestTerminal_append, countDroppedS_append, h1, h2]
      refine ⟨by omega, by simp; omega, ?_⟩
      intro hna
      exact absurd h3 hna

/-! ## Termination-once and no-next-after-terminal claim theorems -/

/-- C1: for any linearization of concurrent `error`/`complete` calls —
on an observer, or on a subscriber with a destination — the downstream
terminal callback is invoked at most once (only by the caller whose CAS
from Active succeeded), and every call either invokes it or routes its
notification to the dropped-notification hook, so that the two tallies
always sum to the number of calls. -/
theorem c1_termination_once :
    (∀ (α : Type) (o : ObserverImpl α) (ops : List (ObsOp α)),
      (∀ op ∈ ops, op.isTerminal = true) →
      countTerminalCb (runObsOps o ops).2 ≤ 1 ∧
      countTerminalCb (runObsOps o ops).2 + countDropped (runObsOps o ops).2
        = ops.length) ∧
    (∀ (α : Type) (s : SubscriberImpl) (ops : List (SubOp α)),
      (∀ op ∈ ops, op.isTerminal = true) → s.hasDestination = true →
      countDestTerminal (runSubOps s ops (α := α)).2 ≤ 1 ∧
      countDestTerminal (runSubOps s ops (α := α)).2 +
        countDroppedS (runSubOps s ops (α := α)).2 = ops.length) := by
  constructor
  · intro α o ops h
    exact ⟨(obs_run_terminal ops o h).1, (obs_run_terminal ops o h).2.1⟩
  · intro α s ops h hd
    exact ⟨(sub_run_terminal ops s h hd).1, (sub_run_terminal ops s h hd).2.1⟩

/-- Witness for C1: three concurrent terminal calls on a fresh observer
and on a fresh safe-mode subscriber; exactly one wins, two are dropped. -/
theorem c1_termination_once_witness :
    ((∀ op ∈ opsTermW, op.isTerminal = true) ∧
      countTerminalCb (runObsOps obsAllOk opsTermW).2 ≤ 1 ∧
      countTerminalCb (runObsOps obsAllOk opsTermW).2 +
        countDropped (runObsOps obsAllOk opsTermW).2 = opsTermW.length) ∧
    ((∀ op ∈ subOpsTermW, op.isTerminal = true) ∧ subW.hasDestination = true ∧
      countDestTerminal (runSubOps subW subOpsTermW (α := Int)).2 ≤ 1 ∧
      countDestTerminal (runSubOps subW subOpsTermW (α := Int)).2 +
        countDroppedS (runSubOps subW subOpsTermW (α := Int)).2
          = subOpsTermW.length) :=
  ⟨⟨by decide, c1_termination_once.1 Int obsAllOk opsTermW (by decide)⟩,
   ⟨by decide, rfl,
    c1_termination_once.2 Int subW subOpsTermW (by decide) rfl⟩⟩

/-- C2: once an observer's status is non-Active, every `next` call drops
its value to the dropped-notification hook without invoking the `onNext`
callback and leaves the state untouched; no operation ever returns the
status to Active (so this persists); and the same two facts hold of a
subscriber with a destination. -/
theorem c2_no_next_after_terminal :
    (∀ (α : Type) (o : ObserverImpl α) (ctx : GoContext) (v : α),
      o.status ≠ .active →
      o.NextWithContext ctx v
        = (o, [.droppedNotification (NewNotificationNext v)])) ∧
    (∀ (α : Type) (o : ObserverImpl α) (op : ObsOp α),
      (runObsOp o op).1.status = .active → o.status = .active) ∧
    (∀ (α : Type) (s : SubscriberImpl) (ctx : GoContext) (v : α) (lk : Bool),
      s.hasDestination = true → s.status ≠ .active →
      s.NextWithContext ctx v lk
        = (s, [.droppedNotification (NewNotificationNext v)])) ∧
    (∀ (α : Type) (s : SubscriberImpl) (op : SubOp α),
      (runSubOp s op (α := α)).1.status = .active → s.status = .active) := by
  refine ⟨?_, ?_, ?_, ?_⟩
  · intro α o ctx v h
    rw [ObserverImpl.NextWithContext, if_pos (Or.inr h)]
  · intro α o op h
    exact obs_step_status o op h
  · intro α s ctx v lk hd h
    simp only [SubscriberImpl.NextWithContext, hd]
    split_ifs <;> simp_all
  · intro α s op h
    exact sub_step_status s op h

/-- Witness for C2: a completed observer and a completed subscriber drop
a subsequent `next`. -/
theorem c2_no_next_after_terminal_witness :
    (ObserverImpl.status { obsAllOk with status := Status.completed }
        ≠ Status.active ∧
      ObserverImpl.NextWithContext { obsAllOk with status := Status.completed }
          contextBackground 7
        = ({ obsAllOk with status := Status.completed },
           [.droppedNotification (NewNotificationNext 7)])) ∧
    (SubscriberImpl.hasDestination { subW with status := Status.completed }
        = true ∧
      SubscriberImpl.status { subW with status := Status.completed }
        ≠ Status.active ∧
      SubscriberImpl.NextWithContext { subW with status := Status.completed }
          contextBackground (7 : Int) true
        = ({ subW with status := Status.completed },
           [.droppedNotification (NewNotificationNext 7)]) ∧
      obsAllOk.status = Status.active ∧ subW.status = Status.active) :=
  ⟨⟨by decide,
    c2_no_next_after_terminal.1 Int { obsAllOk with status := Status.completed }
      contextBackground 7 (by decide)⟩,
   ⟨rfl, by decide,
    ⟨c2_no_next_after_terminal.2.2.1 Int { subW with status := Status.completed }
      contextBackground (7 : Int) true rfl (by decide),
     c2_no_next_after_terminal.2.1 Int obsAllOk
       (ObsOp.next contextBackground 7) (by decide),
     c2_no_next_after_terminal.2.2.2 Int subW
       (SubOp.next contextBackground (7 : Int) true) (by decide)⟩⟩⟩

/-! ## Subscription teardown lemmas -/

/-- Mapping out the events of the plain-finalizer pass. -/
lemma map_fst_execFinalizer (l : List Finalizer) :
    l.map (fun f => (execFinalizer f).1)
      = l.map (fun f => TearEvent.runFinalizer f.id) := by
  induction l with
  | nil => rfl
  | cons a l ih => simp [execFinalizer_fst, ih]

/-- Mapping out the events of the context-aware-finalizer pass. -/
lemma map_fst_execFinalizerWithContext (l : List CtxFinalizer) (ctx : GoContext) :
    l.map (fun f => (execFinalizerWithContext f ctx).1)
      = l.map (fun f => TearEvent.runCtxFinalizer f.id ctx) := by
  induction l with
  | nil => rfl
  | cons a l ih => simp [execFinalizerWithContext_fst, ih]

/-- On a live subscription, the events of `UnsubscribeWithContext` are the
plain finalizers in registration order, then the context-aware finalizers
in registration order carrying the supplied context, then (only when some
finalizer panicked) the aggregated panic to the caller. -/
lemma unsubscribeWithContext_shape (s : SubscriptionImpl) (ctx : GoContext)
    (h : s.done = false) :
    ∃ tail, (s.UnsubscribeWithContext ctx).2 =
      s.finalizers.map (fun f => TearEvent.runFinalizer f.id) ++
        s.ctxFinalizers.map (fun f => TearEvent.runCtxFinalizer f.id ctx) ++ tail ∧
      ∀ e ∈ tail, ∃ errs, e = TearEvent.panicEscape errs := by
  have hbase :
      ((s.finalizers.map execFinalizer ++
          s.ctxFinalizers.map (fun f => execFinalizerWithContext f ctx)).map
        (fun r => r.1))
      = s.finalizers.map (fun f => TearEvent.runFinalizer f.id) ++
          s.ctxFinalizers.map (fun f => TearEvent.runCtxFinalizer f.id ctx) := by
    rw [List.map_append, List.map_map, List.map_map]
    rw [show ((fun r : TearEvent × Option GoErr => r.1) ∘ execFinalizer)
        = fun f => (execFinalizer f).1 from rfl]
    rw [show ((fun r : TearEvent × Option GoErr => r.1) ∘
          fun f => execFinalizerWithContext f ctx)
        = fun f => (execFinalizerWithContext f ctx).1 from rfl]
    rw [map_fst_execFinalizer, map_fst_execFinalizerWithContext]
  by_cases he :
      ((s.finalizers.map execFinalizer ++
          s.ctxFinalizers.map (fun f => execFinalizerWithContext f ctx)).filterMap
        (fun r => r.2)) = []
  · refine ⟨[], ?_, by simp⟩
    simp only [SubscriptionImpl.UnsubscribeWithContext, h]
    rw [if_neg (by simp), if_pos he, hbase, List.append_nil]
  · refine ⟨[TearEvent.panicEscape
      ((s.finalizers.map execFinalizer ++
          s.ctxFinalizers.map (fun f => execFinalizerWithContext f ctx)).filterMap
        (fun r => r.2))], ?_, ?_⟩
    · simp only [SubscriptionImpl.UnsubscribeWithContext, h]
      rw [if_neg (by simp), if_neg he, hbase]
    · intro e hmem
      rw [List.mem_singleton] at hmem
      exact ⟨_, hmem⟩

/-- Plain-run ids of the plain pass. -/
lemma filterMap_plain_of_plain (l : List Finalizer) :
    (l.map (fun f => TearEvent.runFinalizer f.id)).filterMap plainRunId
      = l.map Finalizer.id := by
  induction l with
  | nil => rfl
  | cons a l ih => simp [plainRunId, ih]

/-- The context pass contributes no plain-run ids. -/
lemma filterMap_plain_of_ctx (l : List CtxFinalizer) (ctx : GoContext) :
    (l.map (fun f => TearEvent.runCtxFinalizer f.id ctx)).filterMap plainRunId
      = [] := by
  induction l with
  | nil => rfl
  | cons a l ih => simp [plainRunId, ih]

/-- The plain pass contributes no context-run ids. -/
lemma filterMap_ctx_of_plain (l : List Finalizer) :
    (l.map (fun f => TearEvent.runFinalizer f.id)).filterMap ctxRunId = [] := by
  induction l with
  | nil => rfl
  | cons a l ih => simp [ctxRunId, ih]

/-- Context-run ids of the context pass. -/
lemma filterMap_ctx_of_ctx (l : List CtxFinalizer) (ctx : GoContext) :
    (l.map (fun f => TearEvent.runCtxFinalizer f.id ctx)).filterMap ctxRunId
      = l.map CtxFinalizer.id := by
  induction l with
  | nil => rfl
  | cons a l ih => simp [ctxRunId, ih]

/-- A tail of panic-escape events contributes no finalizer-run ids. -/
lemma filterMap_of_panic_tail (tail : List TearEvent)
    (h : ∀ e ∈ tail, ∃ errs, e = TearEvent.panicEscape errs) :
    tail.filterMap plainRunId = [] ∧ tail.filterMap ctxRunId = [] := by
  induction tail with
  | nil => exact ⟨rfl, rfl⟩
  | cons e tail ih =>
    obtain ⟨errs, rfl⟩ := h e (List.mem_cons_self e tail)
    have iht := ih (fun x hx => h x (List.mem_cons_of_mem _ hx))
    simp [plainRunId, ctxRunId, iht.1, iht.2]

/-- Already-done subscriptions ignore unsubscription. -/
lemma unsubscribe_done (s : SubscriptionImpl) (ctx : GoContext)
    (h : s.done = true) :
    s.UnsubscribeWithContext ctx = (s, []) ∧ s.Unsubscribe = (s, []) := by
  constructor <;>
    simp [SubscriptionImpl.Unsubscribe, SubscriptionImpl.UnsubscribeWithContext, h]

/-- Every subscription operation preserves a set `done` flag. -/
lemma tearOp_done_mono (s : SubscriptionImpl) (op : TearOp)
    (h : s.done = true) : (runTearOp s op).1.done = true := by
  cases op with
  | add t =>
    cases t <;> simp [runTearOp, SubscriptionImpl.Add, h]
  | addWithContext t =>
    cases t <;> simp [runTearOp, SubscriptionImpl.AddWithContext, h]
  | unsubscribe =>
    simp [runTearOp, (unsubscribe_done s contextBackground h).2, h]
  | unsubscribeWithContext ctx =>
    simp [runTearOp, (unsubscribe_done s ctx h).1, h]

/-- A set `done` flag survives any linearization of subscription calls. -/
lemma tearOps_done_mono :
    ∀ (ops : List TearOp) (s : SubscriptionImpl), s.done = true →
      (runTearOps s ops).1.done = true := by
  intro ops
  induction ops with
  | nil => intro s h; exact h
  | cons op ops ih =>
    intro s h
    exact ih (runTearOp s op).1 (tearOp_done_mono s op h)

/-- On a disposed subscription, a run of unsubscription calls produces no
events at all. -/
lemma unsub_replicate_done (ctx : GoContext) :
    ∀ (m : Nat) (s : SubscriptionImpl), s.done = true →
      runTearOps s (List.replicate m (TearOp.unsubscribeWithContext ctx))
        = (s, []) := by
  intro m
  induction m with
  | zero => intro s _; rfl
  | succ m ih =>
    intro s h
    have h1 : runTearOp s (TearOp.unsubscribeWithContext ctx) = (s, []) := by
      simp [runTearOp, (unsubscribe_done s ctx h).1]
    simp [List.replicate_succ, runTearOps, h1, ih s h]

/-- C5: unsubscription is idempotent — on a live subscription one
`UnsubscribeWithContext` runs every registered plain and context-aware
finalizer exactly once (in registration order) and sets `done`; on a
disposed subscription both unsubscription entry points do nothing; the
`done` flag, once set, survives any further sequence of calls; and any
number of additional unsubscribe calls add nothing to the trace. -/
theorem c5_teardown_once :
    (∀ (s : SubscriptionImpl) (ops : List TearOp), s.done = true →
      (runTearOps s ops).1.done = true) ∧
    (∀ (s : SubscriptionImpl) (ctx : GoContext), s.done = false →
      (s.UnsubscribeWithContext ctx).2.filterMap plainRunId
          = s.finalizers.map Finalizer.id ∧
      (s.UnsubscribeWithContext ctx).2.filterMap ctxRunId
          = s.ctxFinalizers.map CtxFinalizer.id ∧
      (s.UnsubscribeWithContext ctx).1.done = true) ∧
    (∀ (s : SubscriptionImpl) (ctx : GoContext), s.done = true →
      s.UnsubscribeWithContext ctx = (s, []) ∧ s.Unsubscribe = (s, [])) ∧
    (∀ (s : SubscriptionImpl) (ctx : GoContext) (n : Nat), s.done = false →
      (runTearOps s
          (List.replicate (n + 1) (TearOp.unsubscribeWithContext ctx))).2
        = (s.UnsubscribeWithContext ctx).2) := by
  refine ⟨?_, ?_, ?_, ?_⟩
  · intro s ops h
    exact tearOps_done_mono ops s h
  · intro s ctx h
    obtain ⟨tail, heq, htail⟩ := unsubscribeWithContext_shape s ctx h
    have htf := filterMap_of_panic_tail tail htail
    refine ⟨?_, ?_, ?_⟩
    · rw [heq, List.filterMap_append, List.filterMap_append,
        filterMap_plain_of_plain, filterMap_plain_of_ctx, htf.1,
        List.append_nil, List.append_nil]
    · rw [heq, List.filterMap_append, List.filterMap_append,
        filterMap_ctx_of_plain, filterMap_ctx_of_ctx, htf.2,
        List.append_nil, List.nil_append]
    · simp [SubscriptionImpl.UnsubscribeWithContext, h]
  · intro s ctx h
    exact unsubscribe_done s ctx h
  · intro s ctx n h
    have hdone : (s.UnsubscribeWithContext ctx).1.done = true := by
      simp [SubscriptionImpl.UnsubscribeWithContext, h]
    have hrest := unsub_replicate_done ctx n (s.UnsubscribeWithContext ctx).1 hdone
    simp [List.replicate_succ, runTearOps, runTearOp, hrest]

/-- Witness for C5: two unsubscribes on a subscription with three
finalizers — each finalizer runs exactly once, the second call is a
no-op. -/
theorem c5_teardown_once_witness :
    (subscriptionW.done = false ∧
      (subscriptionW.UnsubscribeWithContext ctxW).2.filterMap plainRunId
          = subscriptionW.finalizers.map Finalizer.id ∧
      (subscriptionW.UnsubscribeWithContext ctxW).2.filterMap ctxRunId
          = subscriptionW.ctxFinalizers.map CtxFinalizer.id ∧
      (subscriptionW.UnsubscribeWithContext ctxW).1.done = true) ∧
    (runTearOps subscriptionW
        (List.replicate 2 (TearOp.unsubscribeWithContext ctxW))).2
      = (subscriptionW.UnsubscribeWithContext ctxW).2 ∧
    (runTearOps { done := true } [TearOp.unsubscribe]).1.done = true ∧
    SubscriptionImpl.UnsubscribeWithContext { done := true } ctxW
      = ({ done := true }, []) :=
  ⟨⟨rfl, c5_teardown_once.2.1 subscriptionW ctxW rfl⟩,
    c5_teardown_once.2.2.2 subscriptionW ctxW 1 rfl,
    c5_teardown_once.1 { done := true } [TearOp.unsubscribe] rfl,
    (c5_teardown_once.2.2.1 { done := true } ctxW rfl).1⟩

/-- C7: when a live subscription is unsubscribed, all plain finalizers run
before all context-aware finalizers, each group in registration order, and
the context-aware finalizers receive exactly the context supplied to
`UnsubscribeWithContext` — or the background context on the context-less
`Unsubscribe` path; anything after the finalizer runs is only the
aggregated-panic escalation. -/
theorem c7_finalizer_ordering (s : SubscriptionImpl) (ctx : GoContext)
    (h : s.done = false) :
    (∃ tail, (s.UnsubscribeWithContext ctx).2 =
      s.finalizers.map (fun f => TearEvent.runFinalizer f.id) ++
        s.ctxFinalizers.map (fun f => TearEvent.runCtxFinalizer f.id ctx) ++ tail ∧
      ∀ e ∈ tail, ∃ errs, e = TearEvent.panicEscape errs) ∧
    (∃ tail, s.Unsubscribe.2 =
      s.finalizers.map (fun f => TearEvent.runFinalizer f.id) ++
        s.ctxFinalizers.map
          (fun f => TearEvent.runCtxFinalizer f.id contextBackground) ++ tail ∧
      ∀ e ∈ tail, ∃ errs, e = TearEvent.panicEscape errs) :=
  ⟨unsubscribeWithContext_shape s ctx h,
   unsubscribeWithContext_shape s contextBackground h⟩

/-- Witness for C7 at the concrete fixture subscription and context. -/
theorem c7_finalizer_ordering_witness :
    subscriptionW.done = false ∧
    (∃ tail, (subscriptionW.UnsubscribeWithContext ctxW).2 =
      subscriptionW.finalizers.map (fun f => TearEvent.runFinalizer f.id) ++
        subscriptionW.ctxFinalizers.map
          (fun f => TearEvent.runCtxFinalizer f.id ctxW) ++ tail ∧
      ∀ e ∈ tail, ∃ errs, e = TearEvent.panicEscape errs) :=
  ⟨rfl, (c7_finalizer_ordering subscriptionW ctxW rfl).1⟩

end Ro
